import Mathlib

/-!
Verification of the WhatsApp task-detection bot (`index.js`, `schema.sql`)
against its natural-language specification.

The relevant JavaScript functions are shallowly embedded as executable Lean
definitions: strings are `String`/`List Char`, the PostgreSQL tables are lists
of records with the `ON CONFLICT DO NOTHING` insert modelled explicitly,
JavaScript exceptions are `Except`, and the regular expressions of
`hasTaskIndicators` are hand-compiled decidable matchers with the exact
semantics of the source patterns (including operator-precedence quirks such as
`/\d{1,2} ?pm|am/i` parsing as `(\d{1,2} ?pm)|(am)`).
-/

namespace WhatsappBot

/-! ## Character classes

JavaScript regex classes without the `u` flag: `\d` is `[0-9]`, `\w` is
`[A-Za-z0-9_]`, `\s` is whitespace (we model the ASCII whitespace characters
plus NBSP, which covers every character appearing in this development).
`String.prototype.toLowerCase` only changes characters that have a lowercase
mapping; the keyword lists and patterns only distinguish case on ASCII
letters, which `Char.toLower` maps identically to JavaScript. -/

def isDigitChar (c : Char) : Bool := c.isDigit

def isWordChar (c : Char) : Bool := c.isAlphanum || c == '_'

def isSpaceChar (c : Char) : Bool :=
  c == ' ' || c == '\t' || c == '\n' || c == '\r' ||
  c == Char.ofNat 11 || c == Char.ofNat 12 || c == Char.ofNat 160

/-- The apostrophe character (U+0027), used by some source keywords. -/
def apostropheChar : Char := Char.ofNat 39

/-! ## Substring search (JS `String.prototype.includes`) and match helpers -/

/-- Does `needle` occur at the very start of `hay`? -/
def startsWithList : List Char → List Char → Bool
  | _, [] => true
  | [], _ :: _ => false
  | c :: cs, d :: ds => c == d && startsWithList cs ds

/-- Does `needle` occur anywhere in `hay`?  (JS `hay.includes(needle)`.) -/
def containsList (hay needle : List Char) : Bool :=
  match hay with
  | [] => startsWithList [] needle
  | c :: rest => startsWithList (c :: rest) needle || containsList rest needle

/-- Regex `test`: does the anchored matcher `p` succeed at some suffix? -/
def anySuffix (p : List Char → Bool) : List Char → Bool
  | [] => p []
  | c :: rest => p (c :: rest) || anySuffix p rest

/-- Regex `test` for a pattern of the form `\b` followed by a `\d`-initial
body: the matcher `p` is tried only at positions whose preceding character is
a non-word character (or at the start of the text), which is exactly the `\b`
condition when the next pattern character is a digit.  The accumulator is the
wordness of the previous character (`false` at the start of the text). -/
def searchFromBoundary (p : List Char → Bool) : Bool → List Char → Bool
  | _, [] => false
  | prevW, c :: rest => (!prevW && p (c :: rest)) || searchFromBoundary p (isWordChar c) rest

/-- `\d{1,2}` followed by `tail` (greedy two digits, backtracking to one). -/
def digitsThen (tail : List Char → Bool) : List Char → Bool
  | c :: cs =>
    isDigitChar c &&
      ((match cs with
        | c2 :: cs2 => isDigitChar c2 && tail cs2
        | [] => false)
       || tail cs)
  | [] => false

/-- Consume a maximal run of digits. -/
def skipDigits : List Char → List Char
  | c :: rest => if isDigitChar c then skipDigits rest else c :: rest
  | [] => []

/-- Consume a maximal run of `\s` characters. -/
def skipSpaces : List Char → List Char
  | c :: rest => if isSpaceChar c then skipSpaces rest else c :: rest
  | [] => []

/-- `\d+\s*` followed by `tail`.  Every use of this shape in the source is
followed by a literal that is neither a digit nor a space, so the greedy
(maximal-munch) reading is equivalent to full backtracking. -/
def digitsWsThen (tail : List Char → Bool) : List Char → Bool
  | c :: rest => isDigitChar c && tail (skipSpaces (skipDigits rest))
  | [] => false

/-- Strip an expected literal, returning the remainder on success. -/
def stripLit : List Char → List Char → Option (List Char)
  | [], l => some l
  | _ :: _, [] => none
  | p :: ps, c :: cs => if p == c then stripLit ps cs else none

/-- Literal `lit` followed immediately by a digit. -/
def litThenDigitAt (lit : List Char) (l : List Char) : Bool :=
  match stripLit lit l with
  | some (c :: _) => isDigitChar c
  | _ => false

/-! ## The time patterns of `hasTaskIndicators` (source `timePatterns`) -/

/-- `:\d{2}` -/
def colonDD : List Char → Bool
  | ':' :: a :: b :: _ => isDigitChar a && isDigitChar b
  | _ => false

/-- `\.\d{2}` -/
def dotDD : List Char → Bool
  | '.' :: a :: b :: _ => isDigitChar a && isDigitChar b
  | _ => false

/-- `pm` at the head (on lowercased text). -/
def pmAt : List Char → Bool
  | 'p' :: 'm' :: _ => true
  | _ => false

/-- ` ?pm` (on lowercased text). -/
def optSpacePm (l : List Char) : Bool :=
  pmAt l ||
    (match l with
     | ' ' :: rest => pmAt rest
     | _ => false)

/-- `o'?clock` at the head (on lowercased text). -/
def oclockAt : List Char → Bool
  | 'o' :: rest =>
    (stripLit ("clock".toList) rest).isSome ||
      (match rest with
       | a :: rest2 => a == apostropheChar && (stripLit ("clock".toList) rest2).isSome
       | [] => false)
  | _ => false

/-- ` ?o'?clock` (on lowercased text). -/
def optSpaceOclock (l : List Char) : Bool :=
  oclockAt l ||
    (match l with
     | ' ' :: rest => oclockAt rest
     | _ => false)

/-- `/\d{1,2}:\d{2}/` -/
def timePatColon (text : List Char) : Bool :=
  anySuffix (digitsThen colonDD) text

/-- `/\d{1,2}\.\d{2}/` -/
def timePatDot (text : List Char) : Bool :=
  anySuffix (digitsThen dotDD) text

/-- `/\d{1,2} ?pm|am/i` — the alternation has lowest precedence, so this
pattern also matches any text containing `am`. -/
def timePatPmAm (text : List Char) : Bool :=
  let low := text.map Char.toLower
  anySuffix (digitsThen optSpacePm) low || containsList low ("am".toList)

/-- `/\d{1,2}:\d{2} ?pm|am/i` — likewise matches bare `am`. -/
def timePatColonPmAm (text : List Char) : Bool :=
  let low := text.map Char.toLower
  anySuffix
    (digitsThen (fun l =>
      match l with
      | ':' :: a :: b :: rest => isDigitChar a && isDigitChar b && optSpacePm rest
      | _ => false)) low
  || containsList low ("am".toList)

/-- `/בשעה \d/` -/
def timePatBeShaah (text : List Char) : Bool :=
  anySuffix (litThenDigitAt ("בשעה ".toList)) text

/-- `/ב-?\d{1,2}/` -/
def timePatBetDigit (text : List Char) : Bool :=
  anySuffix
    (fun l =>
      match l with
      | c :: cs =>
        c == 'ב' &&
          (match cs with
           | '-' :: d :: _ => isDigitChar d
           | d :: _ => isDigitChar d
           | [] => false)
      | [] => false) text

/-- `/at \d{1,2}/i` -/
def timePatAtDigit (text : List Char) : Bool :=
  anySuffix (litThenDigitAt ("at ".toList)) (text.map Char.toLower)

/-- `/\d{1,2} ?o'?clock/i` -/
def timePatOclock (text : List Char) : Bool :=
  anySuffix (digitsThen optSpaceOclock) (text.map Char.toLower)

/-- `/\b\d{1,2}\/\d{1,2}/` -/
def timePatSlashDate (text : List Char) : Bool :=
  searchFromBoundary
    (digitsThen (fun l =>
      match l with
      | c :: d :: _ => c == '/' && isDigitChar d
      | _ => false)) false text

/-- `/\b\d{1,2}-\d{1,2}/` -/
def timePatDashDate (text : List Char) : Bool :=
  searchFromBoundary
    (digitsThen (fun l =>
      match l with
      | c :: d :: _ => c == '-' && isDigitChar d
      | _ => false)) false text

def timePatterns : List (List Char → Bool) :=
  [timePatColon, timePatDot, timePatPmAm, timePatColonPmAm, timePatBeShaah,
   timePatBetDigit, timePatAtDigit, timePatOclock, timePatSlashDate, timePatDashDate]

/-! ## The amount patterns (source `amountPatterns`) -/

def headIs (ch : Char) : List Char → Bool
  | c :: _ => c == ch
  | [] => false

def headDigit : List Char → Bool
  | c :: _ => isDigitChar c
  | [] => false

/-- `/\d+\s*₪/` -/
def amountPatShekelAfter (text : List Char) : Bool :=
  anySuffix (digitsWsThen (headIs '₪')) text

/-- `/\d+\s*שח/` -/
def amountPatShachAfter (text : List Char) : Bool :=
  anySuffix (digitsWsThen (fun l => startsWithList l ("שח".toList))) text

/-- `/\$\d+/` -/
def amountPatDollarBefore (text : List Char) : Bool :=
  anySuffix
    (fun l =>
      match l with
      | '$' :: d :: _ => isDigitChar d
      | _ => false) text

/-- `/\d+\s*\$/` -/
def amountPatDollarAfter (text : List Char) : Bool :=
  anySuffix (digitsWsThen (headIs '$')) text

/-- `/\d+\s*dollars?/i` -/
def amountPatDollarsWord (text : List Char) : Bool :=
  anySuffix (digitsWsThen (fun l => startsWithList l ("dollar".toList))) (text.map Char.toLower)

/-- `/\d+\s*shekels?/i` -/
def amountPatShekelsWord (text : List Char) : Bool :=
  anySuffix (digitsWsThen (fun l => startsWithList l ("shekel".toList))) (text.map Char.toLower)

/-- `/\d+\s*\*\s*\d+/` -/
def amountPatProduct (text : List Char) : Bool :=
  anySuffix
    (digitsWsThen (fun l =>
      match l with
      | '*' :: rest => headDigit (skipSpaces rest)
      | _ => false)) text

/-- `/\d+\s*nis/i` -/
def amountPatNis (text : List Char) : Bool :=
  anySuffix (digitsWsThen (fun l => startsWithList l ("nis".toList))) (text.map Char.toLower)

/-- `/₪\s*\d+/` -/
def amountPatShekelBefore (text : List Char) : Bool :=
  anySuffix
    (fun l =>
      match l with
      | '₪' :: rest => headDigit (skipSpaces rest)
      | _ => false) text

/-- After the two mandatory digits of `\d{2,}`: consume the rest of the digit
run and require a trailing `\b`.  Backtracking inside the run cannot help,
because stopping early leaves a digit (a word character) next. -/
def runOk : List Char → Bool
  | [] => true
  | c :: rest => if isDigitChar c then runOk rest else !isWordChar c

/-- `\d{2,}\b` anchored at the head. -/
def twoDigitRunAt : List Char → Bool
  | a :: b :: rest => isDigitChar a && isDigitChar b && runOk rest
  | _ => false

/-- `/\b\d{2,}\b/` — the catch-all "any number with 2+ digits" pattern. -/
def amountPatCatchAll (text : List Char) : Bool :=
  searchFromBoundary twoDigitRunAt false text

def amountPatterns : List (List Char → Bool) :=
  [amountPatShekelAfter, amountPatShachAfter, amountPatDollarBefore,
   amountPatDollarAfter, amountPatDollarsWord, amountPatShekelsWord,
   amountPatProduct, amountPatNis, amountPatShekelBefore, amountPatCatchAll]

/-! ## URL and question patterns -/

/-- `/https?:\/\//` (case-sensitive). -/
def urlPatHttp (text : List Char) : Bool :=
  containsList text ("http://".toList) || containsList text ("https://".toList)

/-- `/www\./i` -/
def urlPatWww (text : List Char) : Bool :=
  containsList (text.map Char.toLower) ("www.".toList)

/-- `/\.com|\.org|\.net|\.co\./i` -/
def urlPatDomain (text : List Char) : Bool :=
  let low := text.map Char.toLower
  containsList low (".com".toList) || containsList low (".org".toList) ||
  containsList low (".net".toList) || containsList low (".co.".toList)

def urlPatterns : List (List Char → Bool) := [urlPatHttp, urlPatWww, urlPatDomain]

/-- `/\?/` -/
def questionPatMark (text : List Char) : Bool := containsList text ("?".toList)

def questionPatCanYou (text : List Char) : Bool :=
  containsList (text.map Char.toLower) ("can you".toList)

def questionPatCouldYou (text : List Char) : Bool :=
  containsList (text.map Char.toLower) ("could you".toList)

def questionPatWouldYou (text : List Char) : Bool :=
  containsList (text.map Char.toLower) ("would you".toList)

def questionPatWillYou (text : List Char) : Bool :=
  containsList (text.map Char.toLower) ("will you".toList)

def questionPatEich (text : List Char) : Bool := containsList text ("איך".toList)

def questionPatMatai (text : List Char) : Bool := containsList text ("מתי".toList)

def questionPatEifo (text : List Char) : Bool := containsList text ("איפה".toList)

def questionPatKama (text : List Char) : Bool := containsList text ("כמה".toList)

def questionPatEfshar (text : List Char) : Bool := containsList text ("אפשר".toList)

def questionPatterns : List (List Char → Bool) :=
  [questionPatMark, questionPatCanYou, questionPatCouldYou, questionPatWouldYou,
   questionPatWillYou, questionPatEich, questionPatMatai, questionPatEifo,
   questionPatKama, questionPatEfshar]

/-! ## Keyword lists (source `hebrewIndicators`, `englishIndicators`) -/

def hebrewIndicators : List String :=
  ["מחר", "מחרתיים", "שני", "שלישי", "רביעי", "חמישי", "שישי", "שבת", "ראשון",
   "היום", "אתמול", "השבוע", "שבוע הבא", "החודש", "חודש הבא",
   "ביום", "בשעה", "שעות", "דקות", "זמן", "תאריך",
   "פגישה", "מפגש", "ישיבה", "אירוע", "חגיגה", "יום הולדת", "חתונה", "בר מצווה",
   "כנס", "סדנה", "הרצאה", "קורס", "שיעור", "בדיקה", "טיפול", "רופא", "דחוף",
   "תשלום", "להעביר", "לשלם", "כסף", "שח", "₪", "דולר", "חשבון", "חשבונית",
   "הרשמה", "דמי", "עלות", "מחיר", "תשלום", "העברה",
   "צ" ++ String.singleton apostropheChar ++ "ק", "מזומן", "אשראי",
   "צריך", "חייב", "מוכרח", "רוצה", "צריכה", "חייבת", "מוכרחת", "רוצים",
   "לזכור", "לא לשכוח", "חשוב", "דחוף", "מהיר", "בדחיפות"]

def englishIndicators : List String :=
  ["tomorrow", "today", "yesterday", "monday", "tuesday", "wednesday", "thursday",
   "friday", "saturday", "sunday", "next week", "this week", "next month",
   "at", "pm", "am", "o" ++ String.singleton apostropheChar ++ "clock", "oclock",
   "time", "date", "when", "schedule",
   "meeting", "appointment", "event", "party", "birthday", "wedding", "conference",
   "workshop", "lecture", "class", "course", "checkup", "treatment", "doctor", "urgent",
   "deadline", "due", "reminder", "important", "call", "visit",
   "payment", "pay", "transfer", "money", "$", "₪", "dollar", "bill", "invoice",
   "registration", "fee", "cost", "price", "charge", "owe", "debt", "cash", "credit",
   "need", "must", "should", "have to", "got to", "remember", "dont forget",
   "important", "urgent", "asap", "quickly", "soon"]

/-- Source `hasTaskIndicators(text)`: the indicator pre-filter.  Hebrew
keywords and the case-sensitive patterns are matched against the raw text;
English keywords against `text.toLowerCase()`; case-insensitive patterns
lowercase the text themselves (mirroring the `/i` flag). -/
def hasTaskIndicators (text : String) : Bool :=
  let raw := text.toList
  let lowerText := raw.map Char.toLower
  let hasHebrew := hebrewIndicators.any (fun indicator => containsList raw indicator.toList)
  let hasEnglish := englishIndicators.any (fun indicator => containsList lowerText indicator.toList)
  let hasTime := timePatterns.any (fun pattern => pattern raw)
  let hasAmount := amountPatterns.any (fun pattern => pattern raw)
  let hasUrl := urlPatterns.any (fun pattern => pattern raw)
  let hasQuestion := questionPatterns.any (fun pattern => pattern raw)
  hasHebrew || hasEnglish || hasTime || hasAmount || hasUrl || hasQuestion

/-! ## Data model

`Msg` is a transport message.  `msgFrom` embeds the JS property `msg.from`
(`from` is a Lean keyword).  `id` is the fingerprint `msg.id._serialized`;
for backfill-formatted messages it is the already-serialized `message.id`
produced by `getMessagesFromChat`. -/

structure Msg where
  id : String
  msgFrom : String
  author : Option String := none
  chatId : String := ""
  body : String
  timestamp : Int := 0
  deriving Repr, DecidableEq

/-- A row of the `processed_messages` table (`schema.sql`); `message_id`
carries a `UNIQUE` constraint. -/
structure ProcRow where
  message_id : String
  chat_id : String
  had_task_indicators : Bool
  was_analyzed : Bool
  deriving Repr, DecidableEq

/-- A row of the `tasks` table (`schema.sql`); `message_id` carries a
`UNIQUE` constraint.  `confidence` is stored abstractly as an optional
numerator (its numeric value is irrelevant to every claim). -/
structure TaskRow where
  message_id : String
  chat_id : String
  chat_name : Option String
  sender_name : Option String
  original_text : String
  is_task : Bool
  task_types : List String
  summary : Option String
  event_time : Option Int
  amount : Option String
  link : Option String
  confidence : Option Nat
  deriving Repr, DecidableEq

/-- The two tables the pipeline writes.  A PostgreSQL insert is atomic, so an
arbitrary interleaving of concurrent handlers is an arbitrary sequence of
these row-level operations. -/
structure Db where
  processed : List ProcRow
  tasks : List TaskRow
  deriving Repr, DecidableEq

def Db.empty : Db := ⟨[], []⟩

/-- The classification result parsed from the LLM response (`§6` schema).
A response whose JSON lacks `is_task` decodes with `is_task := false`;
a response that fails to parse raises inside `detectTask` and is modelled as
the `failure` outcome below. -/
structure ClassResult where
  is_task : Bool
  types : List String := []
  summary : Option String := none
  event_time : Option Int := none
  amount : Option String := none
  link : Option String := none
  confidence : Option Nat := none
  error : Bool := false
  deriving Repr, DecidableEq

/-- Outcome of the body of `detectTask`: either the parsed result of the
OpenAI call, or any thrown error (network failure, rate-limit error,
`JSON.parse` failure on a malformed response). -/
inductive ClassifierOutcome
  | ok (r : ClassResult)
  | failure
  deriving Repr, DecidableEq

/-- Source `detectTask`: the whole body is wrapped in `try/catch`, and the
catch returns `{ is_task: false, error: true }`. -/
def detectTask : ClassifierOutcome → ClassResult
  | .ok r => r
  | .failure => { is_task := false, error := true }

/-- Outcome of `Promise.race([detectTask(msg), timeout(15000)])` in the live
message handler: either `detectTask` settled first, or the 15s timeout
rejected first. -/
inductive LiveOutcome
  | result (o : ClassifierOutcome)
  | timeout
  deriving Repr, DecidableEq

def isFailureLiveOutcome : LiveOutcome → Bool
  | .timeout => true
  | .result .failure => true
  | .result (.ok _) => false

/-! ## Dedup store and task store (source `isMessageProcessed`,
`markMessageProcessed`, `saveTask`) -/

/-- `SELECT message_id FROM processed_messages WHERE message_id = $1` —
row existence. -/
def isMessageProcessed (db : Db) (messageId : String) : Bool :=
  db.processed.any (fun r => r.message_id == messageId)

/-- `INSERT INTO processed_messages ... ON CONFLICT (message_id) DO NOTHING`:
thanks to the unique constraint the insert is dropped exactly when a row with
this `message_id` already exists; it never raises and never duplicates
(modelled by totality of this function). -/
def markMessageProcessed (db : Db) (messageId chatId : String)
    (hadTaskIndicators wasAnalyzed : Bool) : Db :=
  if db.processed.any (fun r => r.message_id == messageId) then db
  else { db with processed := db.processed ++ [⟨messageId, chatId, hadTaskIndicators, wasAnalyzed⟩] }

/-- Source `saveTask(task, message, chatName, senderName)`: reads
`message.id._serialized` and `message.from` before issuing
`INSERT INTO tasks ... ON CONFLICT (message_id) DO NOTHING`.  A JavaScript
`undefined` argument is modelled as `none`; accessing `message.id` on
`undefined` throws a `TypeError` before the insert, modelled as `.error`. -/
def saveTask (task : ClassResult) (message : Option Msg)
    (chatName senderName : Option String) (db : Db) : Except Unit Db :=
  match message with
  | none => .error ()
  | some m =>
    .ok (if db.tasks.any (fun r => r.message_id == m.id) then db
         else { db with tasks := db.tasks ++
            [{ message_id := m.id, chat_id := m.msgFrom, chat_name := chatName,
               sender_name := senderName, original_text := m.body,
               is_task := task.is_task, task_types := task.types,
               summary := task.summary, event_time := task.event_time,
               amount := task.amount, link := task.link,
               confidence := task.confidence }] })

/-! ## Live ingestion pipeline (source `client.on('message')`) -/

/-- Observable calls made by the pipeline, used to state the gating claims. -/
inductive Effect
  | classify (m : Msg)
  | taskSaved (messageId : String)
  | jsError
  deriving Repr, DecidableEq

/-- JS `String.prototype.trim` (drop leading and trailing whitespace). -/
def trimList (l : List Char) : List Char :=
  ((l.dropWhile isSpaceChar).reverse.dropWhile isSpaceChar).reverse

/-- Source `isCommand(text)`: `text.startsWith('/')`. -/
def isCommandText : List Char → Bool
  | c :: _ => c == '/'
  | [] => false

/-- The live message handler, from the empty-body guard through task
persistence.  Command handling inside the command chat performs no
classification and is collapsed to its early `return`.  `outcome` is the
result of the raced classifier call; `contactPushname` is
`contact.pushname`.  Returns the new database and the trace of pipeline
effects for this message. -/
def clientOnMessage (monitoredChats : List String) (botCommandChat : String)
    (msg : Msg) (chatName : String) (outcome : LiveOutcome)
    (contactPushname : Option String) (db : Db) : Db × List Effect :=
  -- if (!msg.body || msg.body.trim().length < 1) return;
  if (trimList msg.body.toList).length < 1 then (db, [])
  else
    -- const isCommandChat = chatName.includes(BOT_COMMAND_CHAT);
    let isCommandChat := containsList chatName.toList botCommandChat.toList
    -- const isMonitoredChat = MONITORED_CHATS.some(name => chatName.includes(name));
    let isMonitoredChat := monitoredChats.any (fun name => containsList chatName.toList name.toList)
    if isCommandChat && isCommandText (trimList msg.body.toList) then (db, [])
    else if !isCommandChat && isCommandText (trimList msg.body.toList) then (db, [])
    else if !isMonitoredChat || isCommandChat then (db, [])
    else if (trimList msg.body.toList).length < 3 then (db, [])
    else if isMessageProcessed db msg.id then (db, [])
    else
      let hasIndicators := hasTaskIndicators msg.body
      -- markMessageProcessed(messageId, msg.from, hasIndicators, false)
      let db1 := markMessageProcessed db msg.id msg.msgFrom hasIndicators false
      if !hasIndicators then (db1, [])
      else
        -- markMessageProcessed(messageId, msg.from, true, true)
        let db2 := markMessageProcessed db1 msg.id msg.msgFrom true true
        match outcome with
        | .timeout => (db2, [Effect.classify msg])
        | .result o =>
          let result := detectTask o
          if result.is_task then
            match saveTask result (some msg) (some chatName)
                (some (contactPushname.getD "Unknown")) db2 with
            | .ok db3 => (db3, [Effect.classify msg, Effect.taskSaved msg.id])
            | .error _ => (db2, [Effect.classify msg, Effect.jsError])
          else (db2, [Effect.classify msg])

/-- Sequential processing of live events: each handler invocation is wrapped
in its own `try/catch`, so one message's failure never prevents the next
handler from running (the handler is total here because every throw in the
source is caught). -/
def processLiveMessages (monitoredChats : List String) (botCommandChat : String) :
    List (Msg × String × LiveOutcome × Option String) → Db → Db × List Effect
  | [], db => (db, [])
  | (m, chatName, o, contact) :: rest, db =>
    let r1 := clientOnMessage monitoredChats botCommandChat m chatName o contact db
    let r2 := processLiveMessages monitoredChats botCommandChat rest r1.1
    (r2.1, r1.2 ++ r2.2)

/-! ## Startup backfill (source `processMessagesForTasks`) -/

/-- One iteration of the backfill loop body.  Crucially, the source invokes
`saveTask({...single object...})`, so `saveTask`'s `message` parameter is
`undefined` (here `none`); the per-message `try/catch` swallows the resulting
`TypeError`, skipping both the insert and the subsequent
`markMessageProcessed` call.  Note this path performs no
`isMessageProcessed` check before classifying. -/
def processOneBackfillMessage (outcome : ClassifierOutcome) (_chatCfgName : String)
    (m : Msg) (db : Db) : Db × List Effect × Nat :=
  let hasIndicators := hasTaskIndicators m.body
  if hasIndicators then
    let analysis := detectTask outcome
    if analysis.is_task then
      match saveTask analysis none none none db with
      | .error _ => (db, [Effect.classify m, Effect.jsError], 0)
      | .ok db' =>
        (markMessageProcessed db' m.id m.chatId hasIndicators hasIndicators,
         [Effect.classify m, Effect.taskSaved m.id], 1)
    else
      (markMessageProcessed db m.id m.chatId hasIndicators hasIndicators,
       [Effect.classify m], 0)
  else
    (markMessageProcessed db m.id m.chatId hasIndicators hasIndicators, [], 0)

/-- Source `processMessagesForTasks(messages, chatConfig)`: folds the loop
body over the fetched messages, counting detected tasks.  `outcomes` supplies
the classifier outcome per message fingerprint. -/
def processMessagesForTasks (outcomes : String → ClassifierOutcome)
    (chatCfgName : String) : List Msg → Db → Db × List Effect × Nat
  | [], db => (db, [], 0)
  | m :: rest, db =>
    let r1 := processOneBackfillMessage (outcomes m.id) chatCfgName m db
    let r2 := processMessagesForTasks outcomes chatCfgName rest r1.1
    (r2.1, r1.2.1 ++ r2.2.1, r1.2.2 + r2.2.2)

/-! ## Connection lifecycle (source `restartConnection`, `shouldClearSession`,
`clearSessionSafely`, `client.on('ready')`) -/

/-- `const MAX_RECONNECT_ATTEMPTS = 3;` -/
def MAX_RECONNECT_ATTEMPTS : Nat := 3

structure ConnConfig where
  sessionClearThreshold : Nat := 3   -- SESSION_CLEAR_THRESHOLD (default 3)
  autoClearSession : Bool := true    -- AUTO_CLEAR_SESSION (default true)
  deriving Repr, DecidableEq

/-- The process-wide connection counters.  Times are epoch milliseconds. -/
structure ConnState where
  reconnectAttempts : Nat
  sessionClearAttempts : Nat
  lastSuccessfulConnection : Option Int
  isWhatsAppConnected : Bool
  deriving Repr, DecidableEq

def initialConnState : ConnState := ⟨0, 0, none, false⟩

/-- The 24h staleness signal inside `shouldClearSession`. -/
def staleness24h (s : ConnState) (now : Int) : Bool :=
  match s.lastSuccessfulConnection with
  | some t => decide (now - t > 24 * 60 * 60 * 1000)
  | none => false

/-- Source `shouldClearSession()`. -/
def shouldClearSession (cfg : ConnConfig) (s : ConnState) (now : Int) : Bool :=
  if !cfg.autoClearSession then false
  else if s.sessionClearAttempts ≥ cfg.sessionClearThreshold then true
  else staleness24h s now

inductive ConnEvent
  /-- An invocation of `restartConnection()`. `sessionHealthy` is the result
  of `isSessionHealthy()` (directory exists, non-empty, age ≤ 30 days);
  `sessionExists` is the `fs.existsSync('./.wwebjs_auth')` check inside
  `clearSessionSafely` (a healthy session always exists, but the model keeps
  the two reads separate, as the source does). -/
  | restartConnection (now : Int) (sessionHealthy sessionExists : Bool)
  /-- The `ready` event at time `now`. -/
  | ready (now : Int)
  deriving Repr, DecidableEq

inductive ConnEffect
  | clearSession       -- fs.rmSync('./.wwebjs_auth', ...)
  | reinitClient       -- client.initialize()
  deriving Repr, DecidableEq

/-- One transition of the connection lifecycle.  `restartConnection` returns
immediately at the attempt ceiling; otherwise it increments both counters,
clears the session only when `shouldClearSession()` holds and the health
check fails (resetting both counters, provided the directory exists), backs
off the clear counter when the session looks healthy, and schedules
`client.initialize()`.  `ready` resets all counters and records the success
time. -/
def connStep (cfg : ConnConfig) (s : ConnState) : ConnEvent → ConnState × List ConnEffect
  | .restartConnection now sessionHealthy sessionExists =>
    if s.reconnectAttempts ≥ MAX_RECONNECT_ATTEMPTS then (s, [])
    else
      let s1 := { s with reconnectAttempts := s.reconnectAttempts + 1,
                         isWhatsAppConnected := false }
      let s2 := { s1 with sessionClearAttempts := s1.sessionClearAttempts + 1 }
      if shouldClearSession cfg s2 now then
        if !sessionHealthy then
          if sessionExists then
            ({ s2 with sessionClearAttempts := 0, reconnectAttempts := 0 },
             [ConnEffect.clearSession, ConnEffect.reinitClient])
          else (s2, [ConnEffect.reinitClient])
        else
          let s3 := if s2.sessionClearAttempts > 1 then
                      { s2 with sessionClearAttempts := max 1 (s2.sessionClearAttempts - 1) }
                    else s2
          (s3, [ConnEffect.reinitClient])
      else (s2, [ConnEffect.reinitClient])
  | .ready now =>
    ({ reconnectAttempts := 0, sessionClearAttempts := 0,
       lastSuccessfulConnection := some now, isWhatsAppConnected := true }, [])

def runConn (cfg : ConnConfig) : ConnState → List ConnEvent → ConnState
  | s, [] => s
  | s, e :: es => runConn cfg (connStep cfg s e).1 es

/-! ## Backfill cutoff and message filter (source `getMessagesFromChat`) -/

/-- A fetched message as filtered by `getMessagesFromChat`; `tsMs` is the
value `msg.timestamp * 1000`, i.e. the epoch milliseconds of the `Date`
compared against the cutoff. -/
structure FetchedMsg where
  id : String
  tsMs : Int
  deriving Repr, DecidableEq

/-- The cutoff computation of `getMessagesFromChat`:
`earliestTimestamp = fromTimestamp`, then if `maxDays` is set (and truthy)
and `fromTimestamp` is non-null and older than `now - maxDays` days, the
cutoff is pulled forward to `now - maxDays` days. -/
def computeEarliestTimestamp (fromTimestamp : Option Int) (maxDays : Option Nat)
    (now : Int) : Option Int :=
  match maxDays with
  | none => fromTimestamp
  | some d =>
    let maxDaysAgo : Int := now - (d : Int) * (24 * 60 * 60 * 1000)
    match fromTimestamp with
    | some t => if t < maxDaysAgo then some maxDaysAgo else some t
    | none => none

/-- The filter predicate `new Date(msg.timestamp * 1000) >= earliestTimestamp`.
When `earliestTimestamp` is `null`, JavaScript coerces it to 0. -/
def keepMessage (earliest : Option Int) (m : FetchedMsg) : Bool :=
  match earliest with
  | some e => decide (m.tsMs ≥ e)
  | none => decide (m.tsMs ≥ 0)

def filterMessages (earliest : Option Int) (msgs : List FetchedMsg) : List FetchedMsg :=
  msgs.filter (keepMessage earliest)

/-! ## General lemmas -/

theorem isWordChar_of_isDigitChar {c : Char} (h : isDigitChar c = true) :
    isWordChar c = true := by
  simp only [isDigitChar] at h
  simp [isWordChar, Char.isAlphanum, h]

/-- `markMessageProcessed` touches only the `processed_messages` table. -/
theorem markMessageProcessed_tasks (db : Db) (a b : String) (c d : Bool) :
    (markMessageProcessed db a b c d).tasks = db.tasks := by
  unfold markMessageProcessed
  split <;> rfl

/-! ## Claim C9 — backfill cutoff and inclusive filter -/

/-- C9: in `getMessagesFromChat`, when a checkpoint `t` and a lookback cap of
`d` days are both present, the effective cutoff is
`max t (now − d·86400000)`, and the message filter keeps exactly the fetched
messages whose timestamp (in ms) is ≥ the cutoff: a message exactly at the
cutoff is kept, one a single millisecond older is dropped. -/
theorem backfillCutoffAndInclusiveFilter (t : Int) (d : Nat) (now : Int)
    (msgs : List FetchedMsg) (m : FetchedMsg) (cut : Int) (mid : String) :
    computeEarliestTimestamp (some t) (some d) now
      = some (max t (now - (d : Int) * (24 * 60 * 60 * 1000))) ∧
    (m ∈ filterMessages (computeEarliestTimestamp (some t) (some d) now) msgs ↔
      m ∈ msgs ∧ m.tsMs ≥ max t (now - (d : Int) * (24 * 60 * 60 * 1000))) ∧
    keepMessage (some cut) ⟨mid, cut⟩ = true ∧
    keepMessage (some cut) ⟨mid, cut - 1⟩ = false := by
  have hmax : computeEarliestTimestamp (some t) (some d) now
      = some (max t (now - (d : Int) * (24 * 60 * 60 * 1000))) := by
    simp only [computeEarliestTimestamp]
    split
    · next h => rw [max_eq_right h.le]
    · next h => rw [max_eq_left (not_lt.mp h)]
  refine ⟨hmax, ?_, ?_, ?_⟩
  · rw [hmax]
    simp [filterMessages, List.mem_filter, keepMessage]
  · simp [keepMessage]
  · simp [keepMessage]

theorem backfillCutoffAndInclusiveFilterWitness :
    computeEarliestTimestamp (some 0) (some 1) 86400100 = some (max 0 100) ∧
    ((⟨"a", 100⟩ : FetchedMsg) ∈
        filterMessages (computeEarliestTimestamp (some 0) (some 1) 86400100)
          [⟨"a", 100⟩, ⟨"b", 99⟩] ↔
      (⟨"a", 100⟩ : FetchedMsg) ∈ [(⟨"a", 100⟩ : FetchedMsg), ⟨"b", 99⟩] ∧
        (100 : Int) ≥ max 0 100) ∧
    keepMessage (some 100) ⟨"x", 100⟩ = true ∧
    keepMessage (some 100) ⟨"x", 100 - 1⟩ = false := by
  have h := backfillCutoffAndInclusiveFilter 0 1 86400100
    [⟨"a", 100⟩, ⟨"b", 99⟩] ⟨"a", 100⟩ 100 ("x")
  norm_num at h ⊢
  exact h

/-! ## Claim C7 — session-clear guard -/

theorem shouldClearSession_spec {cfg : ConnConfig} {s : ConnState} {now : Int}
    (h : shouldClearSession cfg s now = true) :
    cfg.autoClearSession = true ∧
      (s.sessionClearAttempts ≥ cfg.sessionClearThreshold ∨ staleness24h s now = true) := by
  unfold shouldClearSession at h
  split at h
  · exact absurd h (by simp)
  · next hauto =>
    refine ⟨by simpa using hauto, ?_⟩
    split at h
    · next hthr => exact Or.inl hthr
    · exact Or.inr h

theorem shouldClearSession_of_not_auto {cfg : ConnConfig} {s : ConnState} {now : Int}
    (h : cfg.autoClearSession = false) : shouldClearSession cfg s now = false := by
  simp [shouldClearSession, h]

/-- C7 counterexample: with auto-clear enabled, a session-clear attempt
counter of 0 (incremented to 1 during the restart, still below the threshold
of 3), a last successful connection 25 hours ago and a failing health check,
`restartConnection` clears the session: the failure-threshold condition is
not required, because the 24h-staleness branch of `shouldClearSession` also
triggers clearing. -/
theorem sessionClearedBelowThreshold :
    ConnEffect.clearSession ∈
      (connStep { sessionClearThreshold := 3, autoClearSession := true }
        ⟨0, 0, some 0, false⟩ (.restartConnection 90000000 false true)).2 ∧
    0 + 1 < 3 := by decide

/-- `staleness24h` depends only on the last-successful-connection field. -/
theorem staleness24h_update (s : ConnState) (now : Int) (a b : Nat) (c : Bool) :
    staleness24h
      { reconnectAttempts := a, sessionClearAttempts := b,
        lastSuccessfulConnection := s.lastSuccessfulConnection,
        isWhatsAppConnected := c } now = staleness24h s now := rfl

/-- C7 (amended): during automatic reconnection, session material is cleared
only when auto-clear is enabled, the health check fails, and either the
session-clear counter (after its increment) has reached the configured
threshold or no successful connection happened in the last 24 hours; and when
auto-clear is disabled, no event ever clears session material. -/
theorem sessionClearConditions (cfg : ConnConfig) (s : ConnState) (now : Int)
    (sessionHealthy sessionExists : Bool) (ev : ConnEvent) :
    (ConnEffect.clearSession ∈
        (connStep cfg s (.restartConnection now sessionHealthy sessionExists)).2 →
      cfg.autoClearSession = true ∧ sessionHealthy = false ∧
        (s.sessionClearAttempts + 1 ≥ cfg.sessionClearThreshold ∨
          staleness24h s now = true)) ∧
    (cfg.autoClearSession = false →
      ConnEffect.clearSession ∉ (connStep cfg s ev).2) := by
  constructor
  · intro h
    simp only [connStep] at h
    split at h
    · simp at h
    · split at h
      · split at h
        · split at h
          · next hmax hclear hhealthy hexists =>
            have hs := shouldClearSession_spec hclear
            have hh : sessionHealthy = false := by
              cases sessionHealthy
              · rfl
              · simp at hhealthy
            rw [staleness24h_update s now] at hs
            exact ⟨hs.1, hh, by simpa using hs.2⟩
          · simp at h
        · simp at h
      · simp at h
  · intro hauto
    cases ev with
    | ready t => simp [connStep]
    | restartConnection n hh he =>
      simp only [connStep]
      split
      · simp
      · rw [shouldClearSession_of_not_auto hauto]
        simp

theorem sessionClearConditionsWitness :
    ((⟨3, true⟩ : ConnConfig).autoClearSession = true ∧ false = false ∧
      ((⟨0, 2, none, false⟩ : ConnState).sessionClearAttempts + 1 ≥
          (⟨3, true⟩ : ConnConfig).sessionClearThreshold ∨
        staleness24h ⟨0, 2, none, false⟩ 5 = true)) ∧
    ConnEffect.clearSession ∉
      (connStep ⟨3, false⟩ ⟨0, 2, none, false⟩ (.restartConnection 5 false true)).2 := by
  constructor
  · exact (sessionClearConditions ⟨3, true⟩ ⟨0, 2, none, false⟩ 5 false true
      (.ready 0)).1 (by decide)
  · exact (sessionClearConditions ⟨3, false⟩ ⟨0, 2, none, false⟩ 5 false true
      (.restartConnection 5 false true)).2 rfl

/-! ## Claim C8 — reconnect ceiling and reset on ready -/

theorem connStep_reconnect_le (cfg : ConnConfig) (s : ConnState) (e : ConnEvent)
    (h : s.reconnectAttempts ≤ MAX_RECONNECT_ATTEMPTS) :
    (connStep cfg s e).1.reconnectAttempts ≤ MAX_RECONNECT_ATTEMPTS := by
  cases e with
  | ready t => simp [connStep]
  | restartConnection now hh he =>
    simp only [connStep]
    split
    · exact h
    · next hlt =>
      have : s.reconnectAttempts + 1 ≤ MAX_RECONNECT_ATTEMPTS := by omega
      split
      · split
        · split
          · simp [MAX_RECONNECT_ATTEMPTS]
          · simpa using this
        · split <;> simpa using this
      · simpa using this

theorem runConn_reconnect_le (cfg : ConnConfig) (evs : List ConnEvent) (s : ConnState)
    (h : s.reconnectAttempts ≤ MAX_RECONNECT_ATTEMPTS) :
    (runConn cfg s evs).reconnectAttempts ≤ MAX_RECONNECT_ATTEMPTS := by
  induction evs generalizing s with
  | nil => simpa [runConn] using h
  | cons e es ih =>
    simp only [runConn]
    exact ih _ (connStep_reconnect_le cfg s e h)

/-- C8: starting from the initial state, the reconnect attempt counter never
exceeds the ceiling `MAX_RECONNECT_ATTEMPTS = 3`; a `restartConnection` call
at the ceiling leaves the state untouched and performs no effect (in
particular no `client.initialize()` call); and the `ready` handler resets
both counters to zero and records the success timestamp. -/
theorem reconnectCeilingAndReset (cfg : ConnConfig) (evs : List ConnEvent)
    (s s2 : ConnState) (now t : Int) (sessionHealthy sessionExists : Bool)
    (h : s.reconnectAttempts ≥ MAX_RECONNECT_ATTEMPTS) :
    (runConn cfg initialConnState evs).reconnectAttempts ≤ MAX_RECONNECT_ATTEMPTS ∧
    connStep cfg s (.restartConnection now sessionHealthy sessionExists) = (s, []) ∧
    connStep cfg s2 (.ready t) =
      ({ reconnectAttempts := 0, sessionClearAttempts := 0,
         lastSuccessfulConnection := some t, isWhatsAppConnected := true }, []) := by
  refine ⟨runConn_reconnect_le cfg evs initialConnState (by simp [initialConnState]), ?_, rfl⟩
  simp only [connStep]
  rw [if_pos h]

theorem reconnectCeilingAndResetWitness :
    (runConn ⟨3, true⟩ initialConnState
        [.restartConnection 0 false false, .ready 5]).reconnectAttempts ≤
      MAX_RECONNECT_ATTEMPTS ∧
    connStep ⟨3, true⟩ ⟨3, 1, some 0, false⟩ (.restartConnection 9 false false) =
      (⟨3, 1, some 0, false⟩, []) ∧
    connStep ⟨3, true⟩ ⟨2, 1, some 0, false⟩ (.ready 7) =
      ({ reconnectAttempts := 0, sessionClearAttempts := 0,
         lastSuccessfulConnection := some 7, isWhatsAppConnected := true }, []) :=
  reconnectCeilingAndReset ⟨3, true⟩ [.restartConnection 0 false false, .ready 5]
    ⟨3, 1, some 0, false⟩ ⟨2, 1, some 0, false⟩ 9 7 false false (by decide)

/-! ## Claim C3 — re-classification after `was_analyzed = true` -/

/-- A message whose fingerprint already has an analyzed dedup row. -/
def procMsgC3 : Msg :=
  { id := "fp-c3", msgFrom := "chat1@g.us", chatId := "chat1@g.us", body := "pay 50" }

def dbC3 : Db := ⟨[⟨"fp-c3", "chat1@g.us", true, true⟩], []⟩

/-- C3 counterexample: the dedup store already holds a
`ProcessedMessageRecord` with `was_analyzed = true` for this fingerprint, yet
the startup backfill scan (`processMessagesForTasks`), which performs no
`isMessageProcessed` check, invokes the classifier for it again. -/
theorem backfillReclassifiesProcessedMessage :
    (dbC3.processed.any fun r => r.message_id == procMsgC3.id && r.was_analyzed) = true ∧
    Effect.classify procMsgC3 ∈
      (processMessagesForTasks (fun _ => .ok { is_task := false }) "Family"
        [procMsgC3] dbC3).2.1 := by decide

/-- C3 (amended): once a `ProcessedMessageRecord` with `was_analyzed = true`
exists for a fingerprint, the live ingestion path never invokes the
classifier for that fingerprint again (it returns before any effect); the
startup backfill path, however, does not consult the dedup store before
classifying and may re-invoke the classifier for such a fingerprint. -/
theorem liveNeverReclassifiesProcessed (monitoredChats : List String)
    (botCommandChat : String) (m : Msg) (chatName : String) (o : LiveOutcome)
    (contact : Option String) (db : Db) (r : ProcRow)
    (hr : r ∈ db.processed) (hid : r.message_id = m.id) (_han : r.was_analyzed = true) :
    clientOnMessage monitoredChats botCommandChat m chatName o contact db = (db, []) := by
  have hproc : isMessageProcessed db m.id = true := by
    simp only [isMessageProcessed, List.any_eq_true]
    exact ⟨r, hr, by simp [hid]⟩
  simp [clientOnMessage, hproc]

def dbC3w : Db := ⟨[⟨"fp-c3w", "chat2@g.us", true, true⟩], []⟩

def liveMsgC3w : Msg := { id := "fp-c3w", msgFrom := "chat2@g.us", body := "pay 50" }

theorem liveNeverReclassifiesProcessedWitness :
    clientOnMessage ["Family"] ("Bot Commands") liveMsgC3w "Family Group"
      (.result (.ok { is_task := true })) none dbC3w = (dbC3w, []) :=
  liveNeverReclassifiesProcessed ["Family"] ("Bot Commands") liveMsgC3w "Family Group"
    (.result (.ok { is_task := true })) none dbC3w
    ⟨"fp-c3w", "chat2@g.us", true, true⟩ (by decide) rfl rfl

/-! ## Claim C4 — backfill task persistence is broken -/

def backfillMsgC4 : Msg :=
  { id := "fp-c4", msgFrom := "chat1@g.us", chatId := "chat1@g.us", body := "pay 50" }

def backfillRunC4 : Db × List Effect × Nat :=
  processMessagesForTasks
    (fun _ => .ok { is_task := true, types := ["payment"],
                    summary := some "pay 50", confidence := some 9 })
    "Family" [backfillMsgC4] Db.empty

/-- C4 evidence: a backfill message with indicators whose classification says
`is_task = true` produces **no** Task row.  The source calls
`saveTask({...})` with a single object argument, so `saveTask`'s `message`
parameter is `undefined` and `message.id._serialized` throws before the
insert; the per-message catch swallows the error, so the task count stays 0,
the `tasks` table stays empty, and even `markMessageProcessed` is skipped. -/
theorem backfillSaveTaskNeverPersists :
    backfillRunC4.1.tasks = [] ∧
    backfillRunC4.1.processed = [] ∧
    Effect.classify backfillMsgC4 ∈ backfillRunC4.2.1 ∧
    Effect.jsError ∈ backfillRunC4.2.1 ∧
    backfillRunC4.2.2 = 0 := by decide

/-! ## Claim C5 — `was_analyzed` is never upgraded -/

def liveMsgC5 : Msg := { id := "fp-c5", msgFrom := "chat1@g.us", body := "pay 50" }

def liveRunC5 : Db × List Effect :=
  clientOnMessage ["Family"] ("Bot Commands") liveMsgC5 "Family Group"
    (.result (.ok { is_task := false })) none Db.empty

/-- C5 evidence: a live message that passes the pre-filter is classified
(the `classify` effect occurs), but after the pipeline finishes the stored
row still has `was_analyzed = false`: the second
`markMessageProcessed(messageId, msg.from, true, true)` call is an
`INSERT ... ON CONFLICT DO NOTHING`, which is a no-op on the existing row
rather than an update. -/
theorem secondMarkDoesNotUpgradeWasAnalyzed :
    liveRunC5.1.processed = [⟨"fp-c5", "chat1@g.us", true, false⟩] ∧
    Effect.classify liveMsgC5 ∈ liveRunC5.2 ∧
    markMessageProcessed
        (markMessageProcessed Db.empty "fp-c5" "chat1@g.us" true false)
        "fp-c5" "chat1@g.us" true true
      = markMessageProcessed Db.empty "fp-c5" "chat1@g.us" true false := by decide

/-! ## Claim C6 — classifier failures are absorbed -/

set_option maxHeartbeats 1600000 in
/-- C6: for any failing classification (a downstream error inside
`detectTask`, or the caller's 15s timeout firing), `detectTask`'s catch
yields `is_task = false` instead of propagating; the handler saves no Task
row (the `tasks` table is untouched and no `taskSaved` effect occurs); and
the live loop goes on to process the remaining messages — the handler is
total, so one failing message never halts the pipeline. -/
theorem classifierFailureAbsorbed (monitoredChats : List String)
    (botCommandChat : String) (m : Msg) (chatName : String) (o : LiveOutcome)
    (contact : Option String) (db : Db)
    (rest : List (Msg × String × LiveOutcome × Option String))
    (h : isFailureLiveOutcome o = true) :
    detectTask .failure = { is_task := false, error := true } ∧
    (clientOnMessage monitoredChats botCommandChat m chatName o contact db).1.tasks
      = db.tasks ∧
    Effect.taskSaved m.id ∉
      (clientOnMessage monitoredChats botCommandChat m chatName o contact db).2 ∧
    processLiveMessages monitoredChats botCommandChat
        ((m, chatName, o, contact) :: rest) db =
      ((processLiveMessages monitoredChats botCommandChat rest
          (clientOnMessage monitoredChats botCommandChat m chatName o contact db).1).1,
        (clientOnMessage monitoredChats botCommandChat m chatName o contact db).2 ++
        (processLiveMessages monitoredChats botCommandChat rest
          (clientOnMessage monitoredChats botCommandChat m chatName o contact db).1).2) := by
  refine ⟨rfl, ?_, ?_, rfl⟩
  · cases o with
    | timeout =>
      simp only [clientOnMessage]
      split_ifs <;> simp_all [markMessageProcessed_tasks]
    | result c =>
      cases c with
      | ok r => simp [isFailureLiveOutcome] at h
      | failure =>
        simp only [clientOnMessage, detectTask]
        split_ifs <;> simp_all [markMessageProcessed_tasks]
  · cases o with
    | timeout =>
      simp only [clientOnMessage]
      split_ifs <;> simp_all
    | result c =>
      cases c with
      | ok r => simp [isFailureLiveOutcome] at h
      | failure =>
        simp only [clientOnMessage, detectTask]
        split_ifs <;> simp_all

theorem classifierFailureAbsorbedWitness :
    detectTask .failure = { is_task := false, error := true } ∧
    (clientOnMessage ["Family"] ("Bot Commands") ⟨"fp-c6", "c@g.us", none, "", "pay 50", 0⟩
        "Family Group" .timeout none Db.empty).1.tasks = Db.empty.tasks ∧
    Effect.taskSaved "fp-c6" ∉
      (clientOnMessage ["Family"] ("Bot Commands") ⟨"fp-c6", "c@g.us", none, "", "pay 50", 0⟩
        "Family Group" .timeout none Db.empty).2 ∧
    processLiveMessages ["Family"] ("Bot Commands")
        [(⟨"fp-c6", "c@g.us", none, "", "pay 50", 0⟩, "Family Group", .timeout, none)] Db.empty =
      ((processLiveMessages ["Family"] ("Bot Commands") []
          (clientOnMessage ["Family"] ("Bot Commands") ⟨"fp-c6", "c@g.us", none, "", "pay 50", 0⟩
            "Family Group" .timeout none Db.empty).1).1,
        (clientOnMessage ["Family"] ("Bot Commands") ⟨"fp-c6", "c@g.us", none, "", "pay 50", 0⟩
          "Family Group" .timeout none Db.empty).2 ++
        (processLiveMessages ["Family"] ("Bot Commands") []
          (clientOnMessage ["Family"] ("Bot Commands") ⟨"fp-c6", "c@g.us", none, "", "pay 50", 0⟩
            "Family Group" .timeout none Db.empty).1).2) :=
  classifierFailureAbsorbed ["Family"] ("Bot Commands")
    ⟨"fp-c6", "c@g.us", none, "", "pay 50", 0⟩ "Family Group" .timeout none Db.empty []
    (by decide)

/-! ## Claim C2 — the pre-filter is a true gate -/

/-- C2: a message whose body has no task indicators is never classified: the
`classify` effect for it occurs neither in the live message handler nor
anywhere in a startup backfill scan (whatever other messages that scan
contains). -/
theorem preFilterGatesClassifier (monitoredChats : List String)
    (botCommandChat : String) (m : Msg) (chatName : String) (o : LiveOutcome)
    (contact : Option String) (db : Db) (outcomes : String → ClassifierOutcome)
    (cfgName : String) (msgs : List Msg) (db2 : Db)
    (h : hasTaskIndicators m.body = false) :
    Effect.classify m ∉
      (clientOnMessage monitoredChats botCommandChat m chatName o contact db).2 ∧
    Effect.classify m ∉ (processMessagesForTasks outcomes cfgName msgs db2).2.1 := by
  constructor
  · simp only [clientOnMessage, h]
    split_ifs <;> simp_all
  · induction msgs generalizing db2 with
    | nil => simp [processMessagesForTasks]
    | cons x rest ih =>
      simp only [processMessagesForTasks, List.mem_append, not_or]
      refine ⟨?_, ih _⟩
      by_cases hx : hasTaskIndicators x.body
      · have hne : m ≠ x := by
          intro he
          rw [he] at h
          exact absurd hx (by simp [h])
        simp only [processOneBackfillMessage, hx, if_true]
        split_ifs <;> simp_all [saveTask]
      · simp [processOneBackfillMessage, hx]

def liveMsgC2 : Msg := { id := "fp-c2", msgFrom := "chat1@g.us", body := "Thanks!" }

theorem preFilterGatesClassifierWitness :
    Effect.classify liveMsgC2 ∉
      (clientOnMessage ["Family"] ("Bot Commands") liveMsgC2 "Family Group"
        (.result (.ok { is_task := true })) none Db.empty).2 ∧
    Effect.classify liveMsgC2 ∉
      (processMessagesForTasks (fun _ => .ok { is_task := true }) "Family"
        [liveMsgC2] Db.empty).2.1 :=
  preFilterGatesClassifier ["Family"] ("Bot Commands") liveMsgC2 "Family Group"
    (.result (.ok { is_task := true })) none Db.empty
    (fun _ => .ok { is_task := true }) "Family" [liveMsgC2] Db.empty (by decide)

/-! ## Claim C1 — storage-level deduplication

Concurrent handlers for retried or duplicate transport events interleave at
`await` points, but each `INSERT ... ON CONFLICT DO NOTHING` is atomic at
the storage layer, so any interleaving of deliveries is some sequence of
row-level operations.  `DbOp` ranges over the two writes the pipeline
performs, with arbitrary arguments. -/

inductive DbOp
  | mark (messageId chatId : String) (hadTaskIndicators wasAnalyzed : Bool)
  | save (task : ClassResult) (m : Msg) (chatName senderName : Option String)
  deriving Repr, DecidableEq

def applyDbOp (db : Db) : DbOp → Db
  | .mark mid cid hi wa => markMessageProcessed db mid cid hi wa
  | .save task m cn sn =>
    match saveTask task (some m) cn sn db with
    | .ok db2 => db2
    | .error _ => db

def applyDbOps (db : Db) (ops : List DbOp) : Db := ops.foldl applyDbOp db

/-- Number of `processed_messages` rows with the given fingerprint. -/
def procCount (db : Db) (mid : String) : Nat :=
  (db.processed.filter (fun r => r.message_id == mid)).length

/-- Number of `tasks` rows with the given fingerprint. -/
def taskCount (db : Db) (mid : String) : Nat :=
  (db.tasks.filter (fun r => r.message_id == mid)).length

def isMarkFor (mid : String) : DbOp → Bool
  | .mark mid2 _ _ _ => mid2 == mid
  | .save _ _ _ _ => false

theorem applyDbOp_save_processed (db : Db) (task : ClassResult) (m : Msg)
    (cn sn : Option String) :
    (applyDbOp db (.save task m cn sn)).processed = db.processed := by
  simp only [applyDbOp, saveTask]
  split <;> rfl

theorem applyDbOp_mark_tasks (db : Db) (mid cid : String) (hi wa : Bool) :
    (applyDbOp db (.mark mid cid hi wa)).tasks = db.tasks :=
  markMessageProcessed_tasks db mid cid hi wa

theorem procCount_mark_le (db : Db) (mid cid fp : String) (hi wa : Bool)
    (h : procCount db fp ≤ 1) :
    procCount (markMessageProcessed db mid cid hi wa) fp ≤ 1 := by
  unfold markMessageProcessed
  split
  · exact h
  · next hany =>
    by_cases hfp : mid = fp
    · subst hfp
      have : db.processed.filter (fun r => r.message_id == mid) = [] := by
        rw [List.filter_eq_nil_iff]
        intro r hr
        simp only [Bool.not_eq_true]
        cases hmid : r.message_id == mid
        · rfl
        · exact absurd (List.any_eq_true.mpr ⟨r, hr, hmid⟩) hany
      simp [procCount, List.filter_append, this]
    · simp only [procCount, List.filter_append]
      have : [(⟨mid, cid, hi, wa⟩ : ProcRow)].filter (fun r => r.message_id == fp) = [] := by
        simp [hfp]
      rw [this]
      simpa [procCount] using h

theorem procCount_mark_ge (db : Db) (mid cid : String) (hi wa : Bool) :
    1 ≤ procCount (markMessageProcessed db mid cid hi wa) mid := by
  unfold markMessageProcessed
  split
  · next hany =>
    obtain ⟨r, hr, hp⟩ := List.any_eq_true.mp hany
    have : r ∈ db.processed.filter (fun r => r.message_id == mid) :=
      List.mem_filter.mpr ⟨hr, hp⟩
    have := List.length_pos.mpr (List.ne_nil_of_mem this)
    simpa [procCount] using this
  · simp [procCount, List.filter_append]

theorem procCount_le_applyDbOp (db : Db) (op : DbOp) (fp : String) :
    procCount db fp ≤ procCount (applyDbOp db op) fp := by
  cases op with
  | mark mid cid hi wa =>
    simp only [applyDbOp, markMessageProcessed]
    split
    · exact le_refl _
    · simp [procCount, List.filter_append]
  | save task m cn sn =>
    simp [procCount, applyDbOp_save_processed]

theorem taskCount_step_le (db : Db) (op : DbOp) (fp : String)
    (h : taskCount db fp ≤ 1) : taskCount (applyDbOp db op) fp ≤ 1 := by
  cases op with
  | mark mid cid hi wa => simpa [taskCount, applyDbOp_mark_tasks] using h
  | save task m cn sn =>
    simp only [applyDbOp, saveTask]
    split
    · exact h
    · next hany =>
      by_cases hfp : m.id = fp
      · subst hfp
        have : db.tasks.filter (fun r => r.message_id == m.id) = [] := by
          rw [List.filter_eq_nil_iff]
          intro r hr
          simp only [Bool.not_eq_true]
          cases hmid : r.message_id == m.id
          · rfl
          · exact absurd (List.any_eq_true.mpr ⟨r, hr, hmid⟩) hany
        simp [taskCount, List.filter_append, this]
      · simp only [taskCount, List.filter_append]
        have hnil : ∀ t : TaskRow, t.message_id = m.id →
            [t].filter (fun r => r.message_id == fp) = [] := by
          intro t ht
          simp [ht, hfp]
        rw [hnil _ rfl]
        simpa [taskCount] using h

theorem procCount_applyDbOps_le (ops : List DbOp) (db : Db) (fp : String)
    (h : procCount db fp ≤ 1) : procCount (applyDbOps db ops) fp ≤ 1 := by
  induction ops generalizing db with
  | nil => simpa [applyDbOps] using h
  | cons op rest ih =>
    simp only [applyDbOps, List.foldl_cons]
    apply ih
    cases op with
    | mark mid cid hi wa => exact procCount_mark_le db mid cid fp hi wa h
    | save task m cn sn => simpa [procCount, applyDbOp_save_processed] using h

theorem procCount_applyDbOps_mono (ops : List DbOp) (db : Db) (fp : String) :
    procCount db fp ≤ procCount (applyDbOps db ops) fp := by
  induction ops generalizing db with
  | nil => simp [applyDbOps]
  | cons op rest ih =>
    simp only [applyDbOps, List.foldl_cons]
    exact le_trans (procCount_le_applyDbOp db op fp) (ih (applyDbOp db op))

theorem procCount_applyDbOps_ge (ops : List DbOp) (db : Db) (fp : String)
    (h : ops.any (isMarkFor fp) = true) :
    1 ≤ procCount (applyDbOps db ops) fp := by
  induction ops generalizing db with
  | nil => simp at h
  | cons op rest ih =>
    simp only [List.any_cons, Bool.or_eq_true] at h
    have hstep : applyDbOps db (op :: rest) = applyDbOps (applyDbOp db op) rest := rfl
    rw [hstep]
    rcases h with hop | hrest
    · cases op with
      | save task m cn sn => simp [isMarkFor] at hop
      | mark mid cid hi wa =>
        simp only [isMarkFor, beq_iff_eq] at hop
        subst hop
        exact le_trans (procCount_mark_ge db mid cid hi wa)
          (procCount_applyDbOps_mono rest (applyDbOp db (.mark mid cid hi wa)) mid)
    · exact ih (applyDbOp db op) hrest

theorem taskCount_applyDbOps_le (ops : List DbOp) (db : Db) (fp : String)
    (h : taskCount db fp ≤ 1) : taskCount (applyDbOps db ops) fp ≤ 1 := by
  induction ops generalizing db with
  | nil => simpa [applyDbOps] using h
  | cons op rest ih =>
    simp only [applyDbOps, List.foldl_cons]
    exact ih _ (taskCount_step_le db op fp h)

theorem isMessageProcessed_of_procCount_pos (db : Db) (fp : String)
    (h : 1 ≤ procCount db fp) : isMessageProcessed db fp = true := by
  unfold procCount at h
  obtain ⟨r, hr⟩ := List.exists_mem_of_ne_nil _ (List.ne_nil_of_length_pos h)
  have := List.mem_filter.mp hr
  exact List.any_eq_true.mpr ⟨r, this.1, this.2⟩

/-- C1: starting from an empty database, after any sequence of storage
operations (deliveries of messages in any interleaving, i.e. any sequence of
`markMessageProcessed` / `saveTask` calls with arbitrary arguments) that
contains at least one mark for fingerprint `fp`, there is exactly one
`processed_messages` row and at most one `tasks` row for `fp`; and a further
insert attempt for `fp` is a no-op — it returns the database unchanged
(`ON CONFLICT DO NOTHING` never raises; the operations are total). -/
theorem dedupStoreIdempotent (ops : List DbOp) (fp chatId : String) (hi wa : Bool)
    (h : ops.any (isMarkFor fp) = true) :
    procCount (applyDbOps Db.empty ops) fp = 1 ∧
    taskCount (applyDbOps Db.empty ops) fp ≤ 1 ∧
    markMessageProcessed (applyDbOps Db.empty ops) fp chatId hi wa
      = applyDbOps Db.empty ops := by
  have hle : procCount (applyDbOps Db.empty ops) fp ≤ 1 :=
    procCount_applyDbOps_le ops Db.empty fp (by simp [procCount, Db.empty])
  have hge : 1 ≤ procCount (applyDbOps Db.empty ops) fp :=
    procCount_applyDbOps_ge ops Db.empty fp h
  refine ⟨le_antisymm hle hge, ?_, ?_⟩
  · exact taskCount_applyDbOps_le ops Db.empty fp (by simp [taskCount, Db.empty])
  · have := isMessageProcessed_of_procCount_pos _ fp hge
    unfold isMessageProcessed at this
    simp [markMessageProcessed, this]

theorem dedupStoreIdempotentWitness :
    ([DbOp.mark "fp-c1" "chat" true false,
      DbOp.mark "fp-c1" "chat" true true,
      DbOp.save { is_task := true } ⟨"fp-c1", "chat", none, "", "pay 50", 0⟩ none none,
      DbOp.save { is_task := true } ⟨"fp-c1", "chat", none, "", "pay 50", 0⟩ none none].any
        (isMarkFor "fp-c1") = true) ∧
    (procCount (applyDbOps Db.empty
        [DbOp.mark "fp-c1" "chat" true false,
         DbOp.mark "fp-c1" "chat" true true,
         DbOp.save { is_task := true } ⟨"fp-c1", "chat", none, "", "pay 50", 0⟩ none none,
         DbOp.save { is_task := true } ⟨"fp-c1", "chat", none, "", "pay 50", 0⟩ none none]) "fp-c1" = 1 ∧
      taskCount (applyDbOps Db.empty
        [DbOp.mark "fp-c1" "chat" true false,
         DbOp.mark "fp-c1" "chat" true true,
         DbOp.save { is_task := true } ⟨"fp-c1", "chat", none, "", "pay 50", 0⟩ none none,
         DbOp.save { is_task := true } ⟨"fp-c1", "chat", none, "", "pay 50", 0⟩ none none]) "fp-c1" ≤ 1 ∧
      markMessageProcessed (applyDbOps Db.empty
        [DbOp.mark "fp-c1" "chat" true false,
         DbOp.mark "fp-c1" "chat" true true,
         DbOp.save { is_task := true } ⟨"fp-c1", "chat", none, "", "pay 50", 0⟩ none none,
         DbOp.save { is_task := true } ⟨"fp-c1", "chat", none, "", "pay 50", 0⟩ none none]) "fp-c1" "chat2" false true
        = applyDbOps Db.empty
        [DbOp.mark "fp-c1" "chat" true false,
         DbOp.mark "fp-c1" "chat" true true,
         DbOp.save { is_task := true } ⟨"fp-c1", "chat", none, "", "pay 50", 0⟩ none none,
         DbOp.save { is_task := true } ⟨"fp-c1", "chat", none, "", "pay 50", 0⟩ none none]) :=
  ⟨by decide,
   dedupStoreIdempotent
     [DbOp.mark "fp-c1" "chat" true false,
      DbOp.mark "fp-c1" "chat" true true,
      DbOp.save { is_task := true } ⟨"fp-c1", "chat", none, "", "pay 50", 0⟩ none none,
      DbOp.save { is_task := true } ⟨"fp-c1", "chat", none, "", "pay 50", 0⟩ none none]
     "fp-c1" "chat2" false true (by decide)⟩

/-! ## Claim C10 — substring matching and the catch-all amount pattern -/

/-- Modelled from the claim's words: "input text containing two or more
consecutive decimal digits" (no word-boundary requirement).  Used only to
state the counterexample against the claim's reading of the catch-all
pattern. -/
def hasTwoConsecutiveDigits (s : String) : Bool :=
  anySuffix
    (fun l =>
      match l with
      | a :: b :: _ => isDigitChar a && isDigitChar b
      | _ => false) s.toList

/-- C10 counterexample: `"abc12def"` contains two consecutive decimal digits,
yet `hasTaskIndicators` rejects it — the catch-all pattern is
`/\b\d{2,}\b/`, whose word boundaries fail inside a word, and no other
keyword or pattern matches this text. -/
theorem embeddedDigitsNotMatched :
    hasTwoConsecutiveDigits ("abc12def") = true ∧
    hasTaskIndicators ("abc12def") = false := by decide

/-- The wordness of the character preceding the current position after
scanning `u`, starting from `p0`. -/
def lastWordStatus (p0 : Bool) (u : List Char) : Bool :=
  u.foldl (fun _ c => isWordChar c) p0

theorem lastWordStatus_cons (p0 : Bool) (c : Char) (u : List Char) :
    lastWordStatus p0 (c :: u) = lastWordStatus (isWordChar c) u := rfl

theorem runOk_append (ds v : List Char) (hds : ∀ c ∈ ds, isDigitChar c = true)
    (hv : v = [] ∨ ∃ c rest, v = c :: rest ∧ isWordChar c = false) :
    runOk (ds ++ v) = true := by
  induction ds with
  | nil =>
    rcases hv with rfl | ⟨c, rest, rfl, hc⟩
    · rfl
    · have hdc : isDigitChar c = false := by
        cases hdc : isDigitChar c
        · rfl
        · exact absurd (isWordChar_of_isDigitChar hdc) (by simp [hc])
      simp [runOk, hdc, hc]
  | cons d ds ih =>
    have hd := hds d (by simp)
    simp only [List.cons_append, runOk, hd, if_true]
    exact ih (fun c hc => hds c (by simp [hc]))

theorem twoDigitRunAt_append (ds v : List Char) (h2 : 2 ≤ ds.length)
    (hds : ∀ c ∈ ds, isDigitChar c = true)
    (hv : v = [] ∨ ∃ c rest, v = c :: rest ∧ isWordChar c = false) :
    twoDigitRunAt (ds ++ v) = true := by
  match ds, h2 with
  | a :: b :: ds2, _ =>
    have ha := hds a (by simp)
    have hb := hds b (by simp)
    simp only [List.cons_append, twoDigitRunAt, ha, hb, Bool.true_and]
    exact runOk_append ds2 v (fun c hc => hds c (by simp [hc])) hv

theorem searchFromBoundary_append (p : List Char → Bool) (u tail : List Char)
    (p0 : Bool) (htail : p tail = true) (hne : tail ≠ [])
    (hlast : lastWordStatus p0 u = false) :
    searchFromBoundary p p0 (u ++ tail) = true := by
  induction u generalizing p0 with
  | nil =>
    obtain ⟨c, rest, rfl⟩ := List.exists_cons_of_ne_nil hne
    have hp0 : p0 = false := hlast
    simp [searchFromBoundary, hp0, htail]
  | cons c u ih =>
    rw [List.cons_append]
    show ((!p0 && p (c :: (u ++ tail))) || searchFromBoundary p (isWordChar c) (u ++ tail)) = true
    rw [ih (isWordChar c) (by simpa [lastWordStatus_cons] using hlast)]
    simp

theorem amountPatCatchAll_append (u ds v : List Char) (h2 : 2 ≤ ds.length)
    (hds : ∀ c ∈ ds, isDigitChar c = true)
    (hu : u = [] ∨ ∃ u2 c, u = u2 ++ [c] ∧ isWordChar c = false)
    (hv : v = [] ∨ ∃ c rest, v = c :: rest ∧ isWordChar c = false) :
    amountPatCatchAll (u ++ ds ++ v) = true := by
  unfold amountPatCatchAll
  rw [List.append_assoc]
  apply searchFromBoundary_append _ u (ds ++ v) false
  · exact twoDigitRunAt_append ds v h2 hds hv
  · match ds, h2 with
    | a :: b :: ds2, _ => simp
  · rcases hu with rfl | ⟨u2, c, rfl, hc⟩
    · rfl
    · simp [lastWordStatus, List.foldl_append, hc]

/-- C10 (amended): the pre-filter's matching is substring containment, not
whole-word matching: any text containing the letter sequence "at" anywhere
(in any case, including inside words such as "what" or "later") passes, and
any text containing a run of two or more decimal digits that is delimited by
word boundaries — preceded and followed by a non-word character or a text
edge — passes via the catch-all amount pattern.  (A digit run embedded
inside a word, such as in "abc12def", is not matched by the catch-all
pattern.) -/
theorem substringMatchingAccepts (s : String) (u ds v : List Char)
    (hat : containsList (s.toList.map Char.toLower) ("at".toList) = true) :
    hasTaskIndicators s = true ∧
    (2 ≤ ds.length → (∀ c ∈ ds, isDigitChar c = true) →
      (u = [] ∨ ∃ u2 c, u = u2 ++ [c] ∧ isWordChar c = false) →
      (v = [] ∨ ∃ c rest, v = c :: rest ∧ isWordChar c = false) →
      hasTaskIndicators (String.mk (u ++ ds ++ v)) = true) := by
  constructor
  · have hen : englishIndicators.any
        (fun indicator => containsList (s.toList.map Char.toLower) indicator.toList) = true :=
      List.any_eq_true.mpr ⟨"at", by simp [englishIndicators], hat⟩
    simp only [hasTaskIndicators]
    rw [hen]
    simp
  · intro h2 hds hu hv
    have hcatch : amountPatCatchAll (String.mk (u ++ ds ++ v)).toList = true := by
      have : (String.mk (u ++ ds ++ v)).toList = u ++ ds ++ v := rfl
      rw [this]
      exact amountPatCatchAll_append u ds v h2 hds hu hv
    have ham : amountPatterns.any
        (fun pattern => pattern (String.mk (u ++ ds ++ v)).toList) = true :=
      List.any_eq_true.mpr ⟨amountPatCatchAll, by simp [amountPatterns], hcatch⟩
    simp only [hasTaskIndicators]
    rw [ham]
    simp

theorem substringMatchingAcceptsWitness :
    hasTaskIndicators ("later") = true ∧
    hasTaskIndicators (String.mk (("x ").toList ++ ("12").toList ++ (" y").toList)) = true := by
  have h := substringMatchingAccepts ("later") (("x ").toList) (("12").toList)
    ((" y").toList) (by decide)
  exact ⟨h.1, h.2 (by decide) (by decide)
    (Or.inr ⟨(("x").toList), ' ', by decide, by decide⟩)
    (Or.inr ⟨' ', (("y").toList), by decide, by decide⟩)⟩

end WhatsappBot
